import Mathlib

/-!
Shallow embedding of the EFT banking pipeline transformation module
(src/data_processor.py, class BankingDataProcessor) and proofs about it.

Modelling conventions:
* A pandas DataFrame is a list of column names plus a list of rows; a row is
  an association list from column name to cell value (first binding wins,
  mirroring the unique-column invariant of a DataFrame).
* Cell values: floats and numerics are exact rationals, datetimes are integers
  on a day-granular timeline (the string parser encodes YYYY-MM-DD as the
  integer YYYYMMDD, which is order-isomorphic to the calendar order used by
  the source), NaN/NaT/None are `Value.null`.
* All computations are exact (no floating-point rounding error is modelled);
  Python round / pandas Series.round are modelled as round-half-to-even on
  rationals.
* datetime.now() is modelled by an explicit `now : Int` parameter threaded to
  the functions that call it.
-/

namespace EFT

/-- Cell value of a DataFrame: pandas NaN/NaT/None collapse to `null`. -/
inductive Value
  | null
  | str (s : String)
  | num (q : ℚ)
  | date (d : Int)
deriving DecidableEq

/-- A row: association list from column name to value (pandas row). -/
abbrev Row := List (String × Value)

/-- Lookup of a cell by column name (first binding). -/
def getCell : Row → String → Option Value
  | [], _ => none
  | (k, v) :: r, c => if k = c then some v else getCell r c

/-- Column assignment: replace the binding if the column exists, else append
it at the end (pandas `df[col] = ...` appends new columns on the right). -/
def setCell : Row → String → Value → Row
  | [], c, v => [(c, v)]
  | (k, w) :: r, c, v => if k = c then (k, v) :: r else (k, w) :: setCell r c v

/-- Column removal (pandas `df.drop(col, axis=1)` restricted to one row). -/
def eraseCell : Row → String → Row
  | [], _ => []
  | (k, w) :: r, c => if k = c then r else (k, w) :: eraseCell r c

/-- Whether the row carries a binding for the column. -/
def hasKey (r : Row) (c : String) : Bool := (getCell r c).isSome

/-- The in-memory batch: a pandas DataFrame. -/
structure DataFrame where
  cols : List String
  rows : List Row
deriving DecidableEq

/-- pd.DataFrame(): the empty frame. -/
def emptyDF : DataFrame := ⟨[], []⟩

/-! ### Scalar coercion helpers (pd.to_numeric, pd.to_datetime, str.strip) -/

/-- Numeric value of a decimal digit character. -/
def digitVal (c : Char) : Option Nat :=
  if 48 ≤ c.toNat ∧ c.toNat ≤ 57 then some (c.toNat - 48) else none

/-- Reads a non-empty all-digit character list as a natural number. -/
def digitsValAux : List Char → Nat → Option Nat
  | [], acc => some acc
  | c :: cs, acc =>
    match digitVal c with
    | some d => digitsValAux cs (acc * 10 + d)
    | none => none

/-- Reads a non-empty all-digit character list as a natural number. -/
def digitsVal (cs : List Char) : Option Nat :=
  if cs.isEmpty then none else digitsValAux cs 0

/-- Unsigned decimal literal: digits with an optional decimal point. -/
def parseUnsignedDec (cs : List Char) : Option ℚ :=
  match cs.splitOn '.' with
  | [i] => (digitsVal i).map (fun n => (n : ℚ))
  | [i, f] =>
    if (i ++ f).isEmpty then none
    else (digitsValAux (i ++ f) 0).map (fun n => (n : ℚ) / 10 ^ f.length)
  | _ => none

/-- Decimal parser standing in for pd.to_numeric on strings: an optional
sign followed by digits with an optional decimal point. -/
def parseDecimal (s : String) : Option ℚ :=
  match s.data with
  | '-' :: rest => (parseUnsignedDec rest).map (fun q => -q)
  | '+' :: rest => parseUnsignedDec rest
  | cs => parseUnsignedDec cs

/-- Date parser standing in for pd.to_datetime on strings: accepts
YYYY-MM-DD and encodes it as the integer YYYYMMDD (order-isomorphic to the
calendar order); everything else fails (NaT). -/
def parseDateStr (s : String) : Option Int :=
  match s.data.splitOn '-' with
  | [ys, ms, ds] =>
    match digitsVal ys, digitsVal ms, digitsVal ds with
    | some y, some m, some d =>
      if ys.length = 4 ∧ 1 ≤ m ∧ m ≤ 12 ∧ 1 ≤ d ∧ d ≤ 31 then
        some ((y : Int) * 10000 + (m : Int) * 100 + (d : Int))
      else none
    | _, _, _ => none
  | _ => none

/-- Whitespace test for str.strip. -/
def isWS (c : Char) : Bool := c == ' ' || c == '\t' || c == '\n' || c == '\r'

/-- str.strip modelled on the character list. -/
def strTrim (s : String) : String :=
  String.mk (((s.data.dropWhile isWS).reverse.dropWhile isWS).reverse)

/-- pd.to_numeric(v, errors=coerce): numbers pass through, numeric strings
parse, everything else (incl. NaN) becomes NaN (`none`). -/
def Value.toNumQ : Value → Option ℚ
  | .num q => some q
  | .str s => parseDecimal s
  | _ => none

/-- pd.to_datetime(v, errors=coerce) at day granularity. -/
def Value.toDateTime : Value → Option Int
  | .date d => some d
  | .str s => parseDateStr s
  | _ => none

/-- astype(str): NaN prints as "nan"; rationals and dates use their Lean
string form (the exact text differs from Python, but only emptiness and
equality of these strings are ever consumed downstream). -/
def Value.toStr : Value → String
  | .null => "nan"
  | .str s => s
  | .num q => toString q
  | .date d => toString d

/-- NaN test for a possibly-missing cell: an absent binding behaves as NaN. -/
def isNullCell : Option Value → Bool
  | some .null => true
  | none => true
  | _ => false

/-- Numeric coercion of a possibly-missing cell. -/
def cellNumOpt (r : Row) (c : String) : Option ℚ :=
  ((getCell r c).getD .null).toNumQ

/-- Numeric value of a cell, defaulting to 0 (used only where the pipeline
has already established numericness). -/
def cellNumD (r : Row) (c : String) : ℚ := (cellNumOpt r c).getD 0

/-! ### Configuration and report model -/

/-- ProcessingConfig of the source module (`_get_default_config` keys). -/
structure ProcessingConfig where
  max_transaction_amount : ℚ
  min_transaction_amount : ℚ
  required_columns : List String
  anomaly_threshold_std : ℚ
  date_format : String
  currency_precision : Nat
  remove_duplicates : Bool
  handle_outliers : Bool
deriving DecidableEq

/-- The default configuration of `_get_default_config`. -/
def defaultConfig : ProcessingConfig :=
  { max_transaction_amount := 1000000
    min_transaction_amount := 1 / 100
    required_columns :=
      ["transaction_id", "bank_id", "customer_id", "amount", "transaction_date"]
    anomaly_threshold_std := 3
    date_format := "%Y-%m-%d"
    currency_precision := 2
    remove_duplicates := true
    handle_outliers := true }

/-- DataQualityLevel enum. -/
inductive DataQualityLevel
  | EXCELLENT
  | GOOD
  | ACCEPTABLE
  | POOR
deriving DecidableEq

/-- DataQualityReport dataclass. -/
structure DataQualityReport where
  total_records : Nat
  valid_records : Nat
  null_records : Nat
  invalid_amounts : Nat
  duplicate_records : Nat
  quality_score : ℚ
  quality_level : DataQualityLevel
  anomaly_count : Nat
  processing_timestamp : Int
deriving DecidableEq

/-! ### Rounding (Python round / pandas Series.round: half to even) -/

/-- Round a rational to the nearest integer, ties to even. -/
def roundHalfEven (x : ℚ) : Int :=
  let f : Int := ⌊x⌋
  let r : ℚ := x - f
  if r < 1 / 2 then f
  else if 1 / 2 < r then f + 1
  else if f % 2 = 0 then f else f + 1

/-- round(x, p): half-to-even rounding at p decimal places. This is an
exact-rational stand-in for Python float round; for an argument lying
exactly on a decimal tie the float computation can land on either side of
the tie depending on the binary representation, so every concrete input a
theorem below evaluates keeps its score away from the ties by far more than
the float representation error. -/
def roundTo (p : Nat) (x : ℚ) : ℚ := (roundHalfEven (x * 10 ^ p) : ℚ) / 10 ^ p

/-! ### Stage 1: validate_schema -/

/-- validate_schema: required columns must be present and the frame must be
non-empty (pandas df.empty is true when either axis has length 0). Returns
(validity, error list). -/
def validateSchema (cfg : ProcessingConfig) (df : DataFrame) : Bool × List String :=
  let missing := cfg.required_columns.filter (fun c => ¬ c ∈ df.cols)
  let errors :=
    (if missing.isEmpty then [] else ["Missing required columns: " ++ toString missing]) ++
    (if df.rows.isEmpty ∨ df.cols.isEmpty then ["Dataframe is empty"] else [])
  (errors.length = 0, errors)

/-! ### Stage 2: clean_null_values -/

/-- Critical fields whose nulls remove the record. -/
def criticalFields : List String := ["bank_id", "customer_id", "amount"]

/-- fillna for one column of one row: replace only a NaN/absent cell. -/
def fillCell (c : String) (v : Value) (r : Row) : Row :=
  if isNullCell (getCell r c) then setCell r c v else r

/-- clean_null_values: drop rows with a null critical field, then fill
defaults for the optional transaction_type / description columns. -/
def cleanNullValues (df : DataFrame) : DataFrame :=
  let kept := df.rows.filter (fun r => criticalFields.all (fun c => ¬ isNullCell (getCell r c)))
  let kept :=
    if "transaction_type" ∈ df.cols then kept.map (fillCell "transaction_type" (.str "UNKNOWN"))
    else kept
  let kept :=
    if "description" ∈ df.cols then kept.map (fillCell "description" (.str "No description"))
    else kept
  ⟨df.cols, kept⟩

/-! ### Stage 3: validate_column_types -/

/-- The amount range filter of validate_column_types: the code keeps exactly
amounts with 0 < amount and amount <= max_transaction_amount. (The config
value min_transaction_amount is read into a local variable by the source but
never used.) -/
def rangeOk (cfg : ProcessingConfig) (a : ℚ) : Bool :=
  decide (0 < a) && decide (a ≤ cfg.max_transaction_amount)

/-- pd.to_numeric on the amount column followed by dropna: rows whose amount
fails numeric coercion are dropped, the rest get the coerced number. -/
def coerceAmounts (rows : List Row) : List Row :=
  rows.filterMap (fun r => (cellNumOpt r "amount").map (fun a => setCell r "amount" (.num a)))

/-- The range filter applied to the coerced amounts. -/
def filterAmountRange (cfg : ProcessingConfig) (rows : List Row) : List Row :=
  rows.filter (fun r => rangeOk cfg (cellNumD r "amount"))

/-- Series.round(currency_precision) on the amount column. -/
def roundAmounts (p : Nat) (rows : List Row) : List Row :=
  rows.map (fun r => setCell r "amount" (.num (roundTo p (cellNumD r "amount"))))

/-- pd.to_datetime(errors=coerce) on the transaction_date column: parsed
dates become `Value.date`, failures become NaT (`Value.null`). -/
def parseDates (rows : List Row) : List Row :=
  rows.map (fun r =>
    setCell r "transaction_date"
      (match ((getCell r "transaction_date").getD .null).toDateTime with
       | some d => .date d
       | none => .null))

/-- Whether the (already parsed) transaction_date cell is strictly in the
future. NaT compares false. -/
def isFutureDate (now : Int) (r : Row) : Bool :=
  match getCell r "transaction_date" with
  | some (.date d) => decide (now < d)
  | _ => false

/-- Whether the parsed transaction_date cell is at or before `now`. NaT
compares false, so this filter also drops unparseable dates. -/
def isPastOrPresentDate (now : Int) (r : Row) : Bool :=
  match getCell r "transaction_date" with
  | some (.date d) => decide (d ≤ now)
  | _ => false

/-- The future-date pass of validate_column_types: the filter runs only when
at least one future date was counted, so NaT rows survive whenever the batch
holds no parsed future date. -/
def filterFutureDates (now : Int) (rows : List Row) : List Row :=
  if 0 < (rows.filter (isFutureDate now)).length then rows.filter (isPastOrPresentDate now)
  else rows

/-- Date handling of validate_column_types, guarded on column presence. -/
def datePhase (cols : List String) (now : Int) (rows : List Row) : List Row :=
  if "transaction_date" ∈ cols then filterFutureDates now (parseDates rows) else rows

/-- astype(str).str.strip() on one identifier column followed by removal of
rows whose stripped value is the empty string. -/
def stripStringField (c : String) (rows : List Row) : List Row :=
  (rows.map (fun r => setCell r c (.str (strTrim ((getCell r c).getD .null).toStr)))).filter
    (fun r => ¬ getCell r c = some (.str ""))

/-- The loop over the identifier columns bank_id, customer_id,
transaction_id, each guarded on column presence. -/
def stripFields : List String → List String → List Row → List Row
  | [], _, rows => rows
  | c :: cs, cols, rows =>
    stripFields cs cols (if c ∈ cols then stripStringField c rows else rows)

/-- Identifier columns handled by the string pass of validate_column_types. -/
def stringFieldList : List String := ["bank_id", "customer_id", "transaction_id"]

/-- String pass of validate_column_types. -/
def stringPhase (cols : List String) (rows : List Row) : List Row :=
  stripFields stringFieldList cols rows

/-- Values accepted by the transaction_type membership test
(TransactionType values plus UNKNOWN). -/
def validTypeCell (v : Value) : Bool :=
  v = .str "TRANSFER" || v = .str "DEPOSIT" || v = .str "WITHDRAWAL" ||
  v = .str "PAYMENT" || v = .str "UNKNOWN"

/-- transaction_type pass: values outside the enumeration are rewritten to
UNKNOWN (never dropped). -/
def typeRewritePhase (cols : List String) (rows : List Row) : List Row :=
  if "transaction_type" ∈ cols then
    rows.map (fun r =>
      if validTypeCell ((getCell r "transaction_type").getD .null) then r
      else setCell r "transaction_type" (.str "UNKNOWN"))
  else rows

/-- validate_column_types: amount coercion, range filter, rounding, date
parsing and future-date removal, identifier stripping, transaction_type
normalisation. Column set unchanged (df.copy() with in-place column
updates). -/
def validateColumnTypes (cfg : ProcessingConfig) (now : Int) (df : DataFrame) : DataFrame :=
  ⟨df.cols,
    typeRewritePhase df.cols
      (stringPhase df.cols
        (datePhase df.cols now
          (roundAmounts cfg.currency_precision
            (filterAmountRange cfg (coerceAmounts df.rows)))))⟩

/-! ### Stage 4: detect_duplicates -/

/-- Identity-key columns of the duplicate criterion. -/
def duplicateColumns : List String := ["bank_id", "customer_id", "amount", "transaction_date"]

/-- Identity key of a row: its values at the duplicate-criterion columns
present in the frame (code: intersection in duplicate_columns order). -/
def dupKey (cols : List String) (r : Row) : List (Option Value) :=
  (duplicateColumns.filter (fun c => c ∈ cols)).map (getCell r)

/-- df.duplicated(subset, keep=first) followed by boolean-mask removal:
walk the rows, keep a row when its key was not seen before. -/
def dedupFirst (key : Row → List (Option Value)) :
    List (List (Option Value)) → List Row → List Row
  | _, [] => []
  | seen, r :: rs =>
    if key r ∈ seen then dedupFirst key seen rs
    else r :: dedupFirst key (key r :: seen) rs

/-- detect_duplicates: pass-through when remove_duplicates is false, else
keep the first occurrence of each identity key in input order. -/
def detectDuplicates (cfg : ProcessingConfig) (df : DataFrame) : DataFrame :=
  if cfg.remove_duplicates then ⟨df.cols, dedupFirst (dupKey df.cols) [] df.rows⟩
  else df

/-- Modelled from the spec words of 4.4 (for comparison with the source
translation `dedupFirst`): remove every record whose identity key equals the
key of some earlier record, keeping only the first occurrence in input
order. -/
def firstOccurrences (key : Row → List (Option Value)) (rows : List Row) : List Row :=
  rows.enum.filterMap (fun p =>
    if key p.2 ∈ (rows.take p.1).map key then none else some p.2)

/-! ### Stage 5: detect_anomalies -/

/-- Amount of a row as a rational (post-typing rows always carry a numeric
amount; the default only pads out-of-contract inputs on which the source
would fault). -/
def amountQ (r : Row) : ℚ := cellNumD r "amount"

/-- Group key of pandas groupby(bank_id): NaN keys create no group (pandas
drops them), modelled by `none`. -/
def bankCell (r : Row) : Option Value :=
  match getCell r "bank_id" with
  | some .null => none
  | none => none
  | some v => some v

/-- Amounts of one bank partition. -/
def groupAmounts (rows : List Row) (b : Value) : List ℚ :=
  (rows.filter (fun r => bankCell r = some b)).map amountQ

/-- Sum of a list of rationals. -/
def qSum (xs : List ℚ) : ℚ := xs.foldr (· + ·) 0

/-- Mean of a list of rationals (0 on the empty list). -/
def qMean (xs : List ℚ) : ℚ := qSum xs / xs.length

/-- Sample variance (ddof = 1, as pandas Series.std). Only meaningful for
lists of length at least 2; see `stdPos`. -/
def sampleVar (xs : List ℚ) : ℚ :=
  qSum (xs.map (fun x => (x - qMean xs) ^ 2)) / ((xs.length : ℚ) - 1)

/-- The guard x.std() > 0 of the source: pandas sample std of fewer than two
values is NaN, and NaN > 0 is false, so the guard holds exactly when the
partition has at least two values and positive sample variance. -/
def stdPos (xs : List ℚ) : Bool :=
  decide (2 ≤ xs.length) && decide (0 < sampleVar xs)

/-- Squared z-score of a row within its bank partition: the source z-score
is |amount - mean| / std, an irrational in general, so the embedding carries
its square (z itself is 0 exactly when the square is 0, and the threshold
comparison is encoded on squares in `isAnomalous`). Rows without a bank
partition (NaN key) get no z-score (`none`, pandas NaN). When the guard
x.std() > 0 fails the source assigns the z-score 0. -/
def zScoreSq (rows : List Row) (r : Row) : Option ℚ :=
  match bankCell r with
  | none => none
  | some b =>
    let xs := groupAmounts rows b
    if stdPos xs then some ((amountQ r - qMean xs) ^ 2 / sampleVar xs) else some 0

/-- Cell stored in the amount_zscore column: the squared z-score (see
`zScoreSq`), NaN when the row has no bank partition. -/
def zCell (rows : List Row) (r : Row) : Value :=
  match zScoreSq rows r with
  | none => .null
  | some s => .num s

/-- amount_zscore > threshold on the stored (squared) value: with z ≥ 0,
z > t holds iff t < 0 or t^2 < z^2. NaN compares false. -/
def cellGtT (t : ℚ) : Option Value → Bool
  | some (.num s) => decide (t < 0 ∨ t ^ 2 < s)
  | _ => false

/-- amount_zscore <= threshold on the stored (squared) value. NaN compares
false, so NaN-scored rows fall in neither set. -/
def cellLeT (t : ℚ) : Option Value → Bool
  | some (.num s) => ! decide (t < 0 ∨ t ^ 2 < s)
  | _ => false

/-- The anomaly classification of detect_anomalies for a row of `rows`
(z-score strictly above the threshold). -/
def isAnomalous (t : ℚ) (rows : List Row) (r : Row) : Bool :=
  cellGtT t (some (zCell rows r))

/-- Append a column name if it is new (pandas column assignment). -/
def addColName (cols : List String) (c : String) : List String :=
  if c ∈ cols then cols else cols ++ [c]

/-- Result of detect_anomalies. `inputAfter` is the state of the input frame of the caller after the stage returns: the source assigns the amount_zscore
column onto its argument in place, so the input is mutated. -/
structure AnomaliesResult where
  inputAfter : DataFrame
  normal : DataFrame
  anomalies : DataFrame
deriving DecidableEq

/-- The frame of the caller after the in-place amount_zscore assignment
df[amount_zscore] = groupby(bank_id)[amount].transform(...). -/
def dfZOf (df : DataFrame) : DataFrame :=
  ⟨addColName df.cols "amount_zscore",
   df.rows.map (fun r => setCell r "amount_zscore" (zCell df.rows r))⟩

/-- Rows with amount_zscore strictly above the threshold. -/
def anomRowsOf (t : ℚ) (df : DataFrame) : List Row :=
  (dfZOf df).rows.filter (fun r => cellGtT t (getCell r "amount_zscore"))

/-- Rows with amount_zscore at most the threshold. -/
def normRowsOf (t : ℚ) (df : DataFrame) : List Row :=
  (dfZOf df).rows.filter (fun r => cellLeT t (getCell r "amount_zscore"))

/-- The anomaly stamps added when the anomaly set is non-empty. -/
def tagAnomaly (now : Int) (r : Row) : Row :=
  setCell (setCell r "anomaly_type" (.str "statistical_outlier")) "detected_at" (.date now)

/-- Undoes the stamps and the z-score column of an anomaly row, recovering
the underlying input record. -/
def originalOf (r : Row) : Row :=
  eraseCell (eraseCell (eraseCell r "detected_at") "anomaly_type") "amount_zscore"

/-- detect_anomalies: pass-through with an empty anomaly frame when
handle_outliers is false; otherwise per-bank z-scoring, the amount_zscore
column is written onto the input, rows with score strictly above the
threshold are copied (with anomaly_type and detected_at stamps) into the
anomaly frame, rows with score at most the threshold form the normal frame
with the amount_zscore column dropped. The stamps are added only when the
anomaly set is non-empty, as in the source. -/
def detectAnomalies (cfg : ProcessingConfig) (now : Int) (df : DataFrame) : AnomaliesResult :=
  if cfg.handle_outliers then
    let t := cfg.anomaly_threshold_std
    ⟨dfZOf df,
     ⟨(dfZOf df).cols.erase "amount_zscore",
      (normRowsOf t df).map (fun r => eraseCell r "amount_zscore")⟩,
     if (anomRowsOf t df).isEmpty then ⟨(dfZOf df).cols, []⟩
     else ⟨(dfZOf df).cols ++ ["anomaly_type", "detected_at"],
           (anomRowsOf t df).map (tagAnomaly now)⟩⟩
  else ⟨df, df, emptyDF⟩

/-! ### Stage 6: generate_quality_report -/

/-- isnull().sum() for one column of the original frame. -/
def countNulls (df : DataFrame) (c : String) : Nat :=
  (df.rows.filter (fun r => isNullCell (getCell r c))).length

/-- Sum of nulls over the required columns present in the frame. -/
def nullRecordCount (cfg : ProcessingConfig) (df : DataFrame) : Nat :=
  ((cfg.required_columns.filter (fun c => c ∈ df.cols)).map (countNulls df)).sum

/-- Count of original rows whose amount fails numeric coercion. -/
def invalidAmountCount (df : DataFrame) : Nat :=
  if "amount" ∈ df.cols then
    (df.rows.filter (fun r => (cellNumOpt r "amount").isNone)).length
  else 0

/-- duplicated(subset).sum() over the original frame: rows repeating the
identity key of an earlier row. -/
def duplicateCount (df : DataFrame) : Nat :=
  df.rows.length - (dedupFirst (dupKey df.cols) [] df.rows).length

/-- The pre-rounding quality score: valid / total * 100, or 0 when the
original batch is empty. -/
def rawQualityScore (total valid : Nat) : ℚ :=
  if 0 < total then (valid : ℚ) / (total : ℚ) * 100 else 0

/-- The quality-level ladder applied to the pre-rounding score. -/
def qualityLevelOf (s : ℚ) : DataQualityLevel :=
  if 95 ≤ s then .EXCELLENT
  else if 85 ≤ s then .GOOD
  else if 75 ≤ s then .ACCEPTABLE
  else .POOR

/-- generate_quality_report. Note the stored quality_score is rounded to two
decimals while the quality_level is classified on the unrounded score. -/
def generateQualityReport (cfg : ProcessingConfig) (now : Int)
    (original cleaned anomalies : DataFrame) : DataQualityReport :=
  { total_records := original.rows.length
    valid_records := cleaned.rows.length
    null_records := nullRecordCount cfg original
    invalid_amounts := invalidAmountCount original
    duplicate_records := duplicateCount original
    quality_score := roundTo 2 (rawQualityScore original.rows.length cleaned.rows.length)
    quality_level := qualityLevelOf (rawQualityScore original.rows.length cleaned.rows.length)
    anomaly_count := anomalies.rows.length
    processing_timestamp := now }

/-! ### Stage 7: aggregate_daily_transactions -/

/-- One output row of the aggregation. The source stores the sample standard
deviation; its square (the sample variance) is carried here since the root
is irrational in general — no claim reads this field. The
transaction_type_breakdown column of the source is unreachable: whenever the
input carries a transaction_type column the aggregation faults earlier (see
`aggregateDaily`). -/
structure AggRow where
  bank_id : Value
  transaction_date : Value
  total_volume : ℚ
  transaction_count : Nat
  avg_transaction_value : ℚ
  var_transaction_value : ℚ
  median_transaction_value : ℚ
  min_transaction_value : ℚ
  max_transaction_value : ℚ
  unique_customers : Nat
  unique_transaction_ids : Nat
  avg_transactions_per_customer : ℚ
  avg_value_per_customer : ℚ
  processed_at : Int
  data_quality_score : ℚ
deriving DecidableEq

/-- pd.to_datetime(col).dt.date on one cell (the embedded timeline is
already day-granular, see the header note). -/
def dtDateCell (v : Value) : Value :=
  match v.toDateTime with
  | some d => .date d
  | none => .null

/-- Group key of groupby([bank_id, transaction_date]): pandas drops groups
with a NaN in either key component. -/
def aggKeyOf (r : Row) : Option (Value × Value) :=
  match bankCell r, getCell r "transaction_date" with
  | some b, some (.date d) => some (b, .date d)
  | _, _ => none

/-- First-occurrence list of distinct elements. -/
def distinctsAux [DecidableEq α] : List α → List α → List α
  | _, [] => []
  | seen, x :: xs =>
    if x ∈ seen then distinctsAux seen xs else x :: distinctsAux (x :: seen) xs

/-- First-occurrence list of distinct elements. -/
def distincts [DecidableEq α] (xs : List α) : List α := distinctsAux [] xs

/-- Series.nunique: number of distinct non-null values of a column within a
group of rows. -/
def nuniqueOf (rows : List Row) (c : String) : Nat :=
  (distincts (rows.filterMap (fun r =>
    match getCell r c with
    | some .null => none
    | none => none
    | some v => some v))).length

/-- Insertion into a sorted list of rationals. -/
def insertSorted (x : ℚ) : List ℚ → List ℚ
  | [] => [x]
  | y :: ys => if x ≤ y then x :: y :: ys else y :: insertSorted x ys

/-- Insertion sort of rationals (for the median). -/
def sortQ : List ℚ → List ℚ
  | [] => []
  | x :: xs => insertSorted x (sortQ xs)

/-- Median of a list of rationals (0 on the empty list, as the downstream
fillna(0) would produce). -/
def qMedian (xs : List ℚ) : ℚ :=
  let s := sortQ xs
  let n := s.length
  if n = 0 then 0
  else if n % 2 = 1 then s.getD (n / 2) 0
  else (s.getD (n / 2 - 1) 0 + s.getD (n / 2) 0) / 2

/-- Minimum of a list of rationals (0 on the empty list). -/
def qMin : List ℚ → ℚ
  | [] => 0
  | x :: xs => xs.foldl min x

/-- Maximum of a list of rationals (0 on the empty list). -/
def qMax : List ℚ → ℚ
  | [] => 0
  | x :: xs => xs.foldl max x

/-- The aggregate row of one (bank_id, transaction_date) group. All numeric
outputs rounded to two decimals; per-customer ratios are 0 when the group
has no non-null customer (inf is replaced and filled with 0 in the source);
the sample std of a single-value group is NaN and is filled with 0. -/
def aggRowFor (rows : List Row) (qScore : ℚ) (now : Int) (k : Value × Value) : AggRow :=
  let grp := rows.filter (fun r => aggKeyOf r = some k)
  let xs := grp.map amountQ
  let n := xs.length
  let vol := qSum xs
  let uc := nuniqueOf grp "customer_id"
  { bank_id := k.1
    transaction_date := k.2
    total_volume := roundTo 2 vol
    transaction_count := n
    avg_transaction_value := roundTo 2 (if n = 0 then 0 else vol / (n : ℚ))
    var_transaction_value := roundTo 2 (if 2 ≤ n then sampleVar xs else 0)
    median_transaction_value := roundTo 2 (qMedian xs)
    min_transaction_value := roundTo 2 (qMin xs)
    max_transaction_value := roundTo 2 (qMax xs)
    unique_customers := uc
    unique_transaction_ids := nuniqueOf grp "transaction_id"
    avg_transactions_per_customer := roundTo 2 (if uc = 0 then 0 else (n : ℚ) / (uc : ℚ))
    avg_value_per_customer := roundTo 2 (if uc = 0 then 0 else vol / (uc : ℚ))
    processed_at := now
    data_quality_score := qScore }

/-- Number of columns produced by the .agg call: seven amount statistics,
two nunique counts, plus one more when the conditional
agg_funcs[transaction_type] entry was added. -/
def aggOutputColumnCount (cols : List String) : Nat :=
  9 + (if "transaction_type" ∈ cols then 1 else 0)

/-- aggregate_daily_transactions. Fallible: groupby/agg raise KeyError when
a consumed column is missing, and the flattening assignment
daily_agg.columns = [nine names] raises ValueError whenever the agg produced
ten columns, which happens exactly when the input carries a transaction_type
column — so the transaction_type_breakdown path below the assignment is
unreachable. Groups are emitted in first-appearance order (the source lets
pandas sort group keys; no claim and no caller reads the order). -/
def aggregateDaily (qScore : ℚ) (now : Int) (df : DataFrame) : Except String (List AggRow) :=
  if ¬ (["bank_id", "transaction_date", "amount", "customer_id", "transaction_id"].all
      (fun c => c ∈ df.cols)) then
    .error "KeyError: aggregation consumes bank_id, transaction_date, amount, customer_id, transaction_id"
  else if "transaction_type" ∈ df.cols then
    .error ("Length mismatch: Expected axis has " ++ toString (aggOutputColumnCount df.cols) ++
      " elements, new values have 9 elements")
  else
    let rows := df.rows.map (fun r =>
      setCell r "transaction_date" (dtDateCell ((getCell r "transaction_date").getD .null)))
    .ok ((distincts (rows.filterMap aggKeyOf)).map (aggRowFor rows qScore now))

/-! ### Stage 8: process_banking_data (orchestrator) -/

/-- The final normal set of a run: the frame that reaches quality reporting
as cleaned data and aggregation as input. -/
def finalNormalSet (cfg : ProcessingConfig) (now : Int) (df : DataFrame) : DataFrame :=
  (detectAnomalies cfg now
    (detectDuplicates cfg (validateColumnTypes cfg now (cleanNullValues df)))).normal

/-- process_banking_data: schema gate, null cleaning, typing, dedup, anomaly
split, quality report, aggregation. The schema failure raises with the error
list; the aggregation stage can also fault (see `aggregateDaily`). -/
def processBankingData (cfg : ProcessingConfig) (now : Int) (df : DataFrame) :
    Except String (List AggRow × DataQualityReport × DataFrame) :=
  let v := validateSchema cfg df
  if v.1 then
    let ar := detectAnomalies cfg now
      (detectDuplicates cfg (validateColumnTypes cfg now (cleanNullValues df)))
    let report := generateQualityReport cfg now df ar.normal ar.anomalies
    match aggregateDaily report.quality_score now ar.normal with
    | .error e => .error e
    | .ok agg => .ok (agg, report, ar.anomalies)
  else .error ("Schema validation failed: " ++ toString v.2)

/-- Decidable equality of pipeline results (for concrete evaluation). -/
instance {ε α : Type} [DecidableEq ε] [DecidableEq α] : DecidableEq (Except ε α) := fun a b =>
  match a, b with
  | .error e, .error f =>
    if h : e = f then isTrue (by rw [h]) else isFalse (fun hh => by cases hh; exact h rfl)
  | .error _, .ok _ => isFalse (fun hh => by cases hh)
  | .ok _, .error _ => isFalse (fun hh => by cases hh)
  | .ok x, .ok y =>
    if h : x = y then isTrue (by rw [h]) else isFalse (fun hh => by cases hh; exact h rfl)

/-! ### Concrete batches used by counterexamples and witnesses -/

/-- The default required columns. -/
def colsBase : List String :=
  ["transaction_id", "bank_id", "customer_id", "amount", "transaction_date"]

/-- A fully valid single record. -/
def rowGood : Row :=
  [("transaction_id", .str "T1"), ("bank_id", .str "B1"), ("customer_id", .str "C1"),
   ("amount", .num 100), ("transaction_date", .str "2025-01-01")]

/-- A processing time after the dates of the concrete batches
(2025-06-12 on the YYYYMMDD timeline). -/
def now0 : Int := 20250612

/-- A schema-valid batch additionally carrying the optional transaction_type
column. -/
def dfBug : DataFrame :=
  ⟨colsBase ++ ["transaction_type"], [rowGood ++ [("transaction_type", .str "TRANSFER")]]⟩

/-- A schema-valid batch whose single record has amount 0.001: inside the
accepted range (0, max], but rounded to 0.00 by the currency-precision pass
that runs after the range filter. -/
def dfC2 : DataFrame :=
  ⟨colsBase,
   [[("transaction_id", .str "T1"), ("bank_id", .str "B1"), ("customer_id", .str "C1"),
     ("amount", .num (1 / 1000)), ("transaction_date", .str "2025-01-01")]]⟩

/-- A valid single-record batch (witness input). -/
def dfW : DataFrame := ⟨colsBase, [rowGood]⟩

/-- Original batch of 25000 records for the quality-level boundary
counterexample. -/
def dfC4orig : DataFrame := ⟨colsBase, List.replicate 25000 rowGood⟩

/-- Final normal set of 23749 records: raw score 94.996, which rounds to
95.00 while classifying as GOOD. The score sits 0.001 away from the decimal
tie 94.995, so Python float round(94.996, 2) stores 95.0 exactly as the
exact-rational rounding does. -/
def dfC4clean : DataFrame := ⟨colsBase, List.replicate 23749 rowGood⟩

/-- The record of `dfW` as it reaches the final normal set: amount rounded
(unchanged at precision 2), transaction_date parsed to the day timeline. -/
def rowGoodFinal : Row :=
  [("transaction_id", .str "T1"), ("bank_id", .str "B1"), ("customer_id", .str "C1"),
   ("amount", .num 100), ("transaction_date", .date 20250101)]

/-! ## Lemmas about rows -/

theorem getCell_setCell_self (r : Row) (c : String) (v : Value) :
    getCell (setCell r c v) c = some v := by
  induction r with
  | nil => simp [setCell, getCell]
  | cons h t ih =>
    obtain ⟨k, w⟩ := h
    by_cases hk : k = c
    · simp [setCell, getCell, hk]
    · simp [setCell, getCell, hk, ih]

theorem getCell_setCell_ne (r : Row) {c c' : String} (v : Value) (h : c' ≠ c) :
    getCell (setCell r c v) c' = getCell r c' := by
  induction r with
  | nil =>
    show getCell [(c, v)] c' = none
    unfold getCell
    rw [if_neg (fun hh => h hh.symm)]
    rfl
  | cons hd t ih =>
    obtain ⟨k, w⟩ := hd
    by_cases hk : k = c
    · subst hk
      show getCell (if k = k then (k, v) :: t else (k, w) :: setCell t k v) c' = _
      rw [if_pos rfl]
      unfold getCell
      rw [if_neg (fun hh => h hh.symm), if_neg (fun hh => h hh.symm)]
    · show getCell (if k = c then (k, v) :: t else (k, w) :: setCell t c v) c' = _
      rw [if_neg hk]
      unfold getCell
      by_cases hk' : k = c'
      · rw [if_pos hk', if_pos hk']
      · rw [if_neg hk', if_neg hk', ih]

theorem getCell_eraseCell_ne (r : Row) {c c' : String} (h : c' ≠ c) :
    getCell (eraseCell r c) c' = getCell r c' := by
  induction r with
  | nil => simp [eraseCell]
  | cons hd t ih =>
    obtain ⟨k, w⟩ := hd
    by_cases hk : k = c
    · subst hk
      show getCell (if k = k then t else (k, w) :: eraseCell t k) c' = _
      rw [if_pos rfl]
      show getCell t c' = getCell ((k, w) :: t) c'
      conv_rhs => rw [getCell]
      rw [if_neg (fun hh => h hh.symm)]
    · show getCell (if k = c then t else (k, w) :: eraseCell t c) c' = _
      rw [if_neg hk]
      unfold getCell
      by_cases hk' : k = c'
      · rw [if_pos hk', if_pos hk']
      · rw [if_neg hk', if_neg hk', ih]

theorem hasKey_setCell_ne (r : Row) {c c' : String} (v : Value) (h : c' ≠ c) :
    hasKey (setCell r c v) c' = hasKey r c' := by
  unfold hasKey
  rw [getCell_setCell_ne r v h]

theorem eraseCell_setCell (r : Row) {c : String} (v : Value) (h : hasKey r c = false) :
    eraseCell (setCell r c v) c = r := by
  induction r with
  | nil => simp [setCell, eraseCell]
  | cons hd t ih =>
    obtain ⟨k, w⟩ := hd
    have hk : ¬ k = c := by
      intro hh
      simp [hasKey, getCell, hh] at h
    have ht : hasKey t c = false := by
      simpa [hasKey, getCell, hk] using h
    simp [setCell, eraseCell, hk, ih ht]

/-- Unstamping a freshly stamped anomaly row recovers the input record. -/
theorem originalOf_tagAnomaly (r : Row) (now : Int) (v : Value)
    (hz : hasKey r "amount_zscore" = false) (ha : hasKey r "anomaly_type" = false)
    (hd : hasKey r "detected_at" = false) :
    originalOf (tagAnomaly now (setCell r "amount_zscore" v)) = r := by
  unfold originalOf tagAnomaly
  rw [eraseCell_setCell _ _ (by
    rw [hasKey_setCell_ne _ _ (by decide), hasKey_setCell_ne _ _ (by decide)]
    exact hd)]
  rw [eraseCell_setCell _ _ (by rw [hasKey_setCell_ne _ _ (by decide)]; exact ha)]
  exact eraseCell_setCell _ _ hz

/-! ## Lemmas about dedupFirst (Stage 4) -/

theorem mem_dedupFirst {key : Row → List (Option Value)}
    {seen : List (List (Option Value))} {rows : List Row} {r : Row}
    (h : r ∈ dedupFirst key seen rows) : r ∈ rows := by
  induction rows generalizing seen with
  | nil => simp [dedupFirst] at h
  | cons x xs ih =>
    by_cases hx : key x ∈ seen
    · rw [dedupFirst, if_pos hx] at h
      exact List.mem_cons_of_mem x (ih h)
    · rw [dedupFirst, if_neg hx] at h
      rcases List.mem_cons.mp h with h | h
      · exact h ▸ List.mem_cons_self x xs
      · exact List.mem_cons_of_mem x (ih h)

theorem dedupFirst_idem (key : Row → List (Option Value)) (rows : List Row) :
    ∀ seen, dedupFirst key seen (dedupFirst key seen rows) = dedupFirst key seen rows := by
  induction rows with
  | nil => intro seen; simp [dedupFirst]
  | cons r rs ih =>
    intro seen
    by_cases h : key r ∈ seen
    · rw [dedupFirst, if_pos h, ih]
    · rw [dedupFirst, if_neg h, dedupFirst, if_neg h, ih (key r :: seen)]

theorem dedupFirst_eq_take_spec (key : Row → List (Option Value)) (rows : List Row) :
    ∀ seen, dedupFirst key seen rows =
      rows.enum.filterMap (fun p =>
        if key p.2 ∈ seen ∨ key p.2 ∈ (rows.take p.1).map key then none else some p.2) := by
  induction rows with
  | nil => intro seen; simp [dedupFirst]
  | cons r rs ih =>
    intro seen
    rw [List.enum_cons']
    rw [List.filterMap_cons, List.filterMap_map]
    by_cases h : key r ∈ seen
    · rw [dedupFirst, if_pos h]
      have hcond : (key r ∈ seen ∨ key r ∈ ((r :: rs).take 0).map key) := Or.inl h
      rw [if_pos hcond, ih seen]
      apply List.filterMap_congr
      intro p hp
      obtain ⟨i, a⟩ := p
      show (if key a ∈ seen ∨ key a ∈ (rs.take i).map key then none else some a) =
           (if key a ∈ seen ∨ key a ∈ ((r :: rs).take (i + 1)).map key then none else some a)
      rw [List.take_succ_cons, List.map_cons]
      by_cases hc : key a ∈ seen ∨ key a ∈ (rs.take i).map key
      · rw [if_pos hc]
        rcases hc with hc | hc
        · rw [if_pos (Or.inl hc)]
        · rw [if_pos (Or.inr (List.mem_cons_of_mem _ hc))]
      · rw [if_neg hc, if_neg ?_]
        intro hcc
        rcases hcc with hcc | hcc
        · exact hc (Or.inl hcc)
        · rcases List.mem_cons.mp hcc with hcc | hcc
          · exact hc (Or.inl (hcc ▸ h))
          · exact hc (Or.inr hcc)
    · rw [dedupFirst, if_neg h]
      have hcond : ¬ (key r ∈ seen ∨ key r ∈ ((r :: rs).take 0).map key) := by
        intro hc
        rcases hc with hc | hc
        · exact h hc
        · simp at hc
      rw [if_neg hcond, ih (key r :: seen)]
      congr 1
      apply List.filterMap_congr
      intro p hp
      obtain ⟨i, a⟩ := p
      show (if key a ∈ key r :: seen ∨ key a ∈ (rs.take i).map key then none else some a) =
           (if key a ∈ seen ∨ key a ∈ ((r :: rs).take (i + 1)).map key then none else some a)
      rw [List.take_succ_cons, List.map_cons]
      by_cases hc : key a ∈ key r :: seen ∨ key a ∈ (rs.take i).map key
      · rw [if_pos hc]
        rcases hc with hc | hc
        · rcases List.mem_cons.mp hc with hc | hc
          · rw [if_pos (Or.inr (hc ▸ List.mem_cons_self _ _))]
          · rw [if_pos (Or.inl hc)]
        · rw [if_pos (Or.inr (List.mem_cons_of_mem _ hc))]
      · rw [if_neg hc, if_neg ?_]
        intro hcc
        rcases hcc with hcc | hcc
        · exact hc (Or.inl (List.mem_cons_of_mem _ hcc))
        · rcases List.mem_cons.mp hcc with hcc | hcc
          · exact hc (Or.inl (hcc ▸ List.mem_cons_self _ _))
          · exact hc (Or.inr hcc)

theorem dedupFirst_eq_firstOccurrences (key : Row → List (Option Value)) (rows : List Row) :
    dedupFirst key [] rows = firstOccurrences key rows := by
  rw [dedupFirst_eq_take_spec key rows []]
  unfold firstOccurrences
  apply List.filterMap_congr
  intro p hp
  simp only [List.not_mem_nil, false_or]

/-! ## Claim theorems: deduplication (C7, C8) -/

/-- C7: deduplication is idempotent — for every batch and config, applying
detect_duplicates to its own output returns that output unchanged: the
second application finds no further duplicates. -/
theorem c7_dedup_idempotent (cfg : ProcessingConfig) (df : DataFrame) :
    detectDuplicates cfg (detectDuplicates cfg df) = detectDuplicates cfg df := by
  unfold detectDuplicates
  by_cases h : cfg.remove_duplicates
  · simp only [if_pos h]
    show (⟨df.cols, dedupFirst (dupKey df.cols) [] (dedupFirst (dupKey df.cols) [] df.rows)⟩ :
      DataFrame) = ⟨df.cols, dedupFirst (dupKey df.cols) [] df.rows⟩
    rw [dedupFirst_idem]
  · simp only [if_neg h]

/-- C8: with remove_duplicates on, detect_duplicates removes exactly the
records whose identity key (the intersection of bank_id, customer_id,
amount, transaction_date with the columns of the batch) equals the key of
some earlier record, keeping only the first occurrence of each key in
input order; with remove_duplicates off it returns the batch unchanged. The
right-hand side `firstOccurrences` is the positional spec-side description
of that removal rule. -/
theorem c8_dedup_characterization (cfg : ProcessingConfig) (df : DataFrame) :
    detectDuplicates cfg df =
      if cfg.remove_duplicates then
        ⟨df.cols, firstOccurrences (dupKey df.cols) df.rows⟩
      else df := by
  unfold detectDuplicates
  by_cases h : cfg.remove_duplicates
  · rw [if_pos h, if_pos h, dedupFirst_eq_firstOccurrences]
  · rw [if_neg h, if_neg h]

/-! ## Claim theorems: quality report (C3, C4) -/

/-- C3: the quality score of the generated report is
round(valid_records / total_records * 100, 2) when the original batch is
non-empty, and 0 when it is empty (total_records is the size of the
original batch, valid_records the size of the final normal set handed to
the reporter). -/
theorem c3_quality_score_formula (cfg : ProcessingConfig) (now : Int)
    (original cleaned anomalies : DataFrame) :
    (generateQualityReport cfg now original cleaned anomalies).quality_score =
      if 0 < original.rows.length then
        roundTo 2 ((cleaned.rows.length : ℚ) / (original.rows.length : ℚ) * 100)
      else 0 := by
  show roundTo 2 (rawQualityScore original.rows.length cleaned.rows.length) = _
  unfold rawQualityScore
  by_cases h : 0 < original.rows.length
  · rw [if_pos h, if_pos h]
  · rw [if_neg h, if_neg h]
    with_unfolding_all decide

/-- Characterization of the quality-level ladder on the raw score. -/
theorem qualityLevelOf_spec (s : ℚ) :
    (qualityLevelOf s = .EXCELLENT ↔ 95 ≤ s) ∧
    (qualityLevelOf s = .GOOD ↔ 85 ≤ s ∧ s < 95) ∧
    (qualityLevelOf s = .ACCEPTABLE ↔ 75 ≤ s ∧ s < 85) ∧
    (qualityLevelOf s = .POOR ↔ s < 75) := by
  unfold qualityLevelOf
  split_ifs with h1 h2 h3 <;>
    refine ⟨?_, ?_, ?_, ?_⟩ <;> constructor <;> intro h <;>
    first
      | rfl
      | assumption
      | (exact absurd rfl (by simp_all))
      | (constructor <;> linarith)
      | linarith
      | simp_all

/-- C4 counterexample: with an original batch of 25000 records and a final
normal set of 23749 the raw score is 94.996, so the stored quality_score
field rounds to 95.00 while the quality_level classifies on the unrounded
value and is GOOD: the level is not determined by the stored score with the
claimed lower-inclusive boundaries (95 <= quality_score yet not EXCELLENT).
The raw score is 0.001 above the decimal tie, safely beyond the roughly
1e-14 float representation error of valid/total*100, so the source (whose
float round stores 95.0 here as well) exhibits the same report. -/
theorem c4_counterexample :
    95 ≤ (generateQualityReport defaultConfig 0 dfC4orig dfC4clean emptyDF).quality_score ∧
    (generateQualityReport defaultConfig 0 dfC4orig dfC4clean emptyDF).quality_level ≠
      DataQualityLevel.EXCELLENT := by
  have hlen1 : dfC4orig.rows.length = 25000 := by
    show (List.replicate 25000 rowGood).length = 25000
    rw [List.length_replicate]
  have hlen2 : dfC4clean.rows.length = 23749 := by
    show (List.replicate 23749 rowGood).length = 23749
    rw [List.length_replicate]
  have hraw : rawQualityScore 25000 23749 = 23749 / 250 := by
    unfold rawQualityScore
    rw [if_pos (by norm_num)]
    norm_num
  constructor
  · show 95 ≤ roundTo 2 (rawQualityScore dfC4orig.rows.length dfC4clean.rows.length)
    rw [hlen1, hlen2, hraw]
    simp only [roundTo, roundHalfEven]
    norm_num
  · simp only [generateQualityReport]
    rw [hlen1, hlen2, hraw]
    unfold qualityLevelOf
    rw [if_neg (by norm_num), if_pos (by norm_num)]
    decide

/-- C4 as amended: the quality_level of the report is determined with
lower-inclusive tier boundaries by the unrounded score
valid_records / total_records * 100 (0 for an empty original batch), not by
the rounded quality_score field stored in the report, from which it can
disagree near a tier boundary. -/
theorem c4_amended (cfg : ProcessingConfig) (now : Int)
    (original cleaned anomalies : DataFrame) :
    ((generateQualityReport cfg now original cleaned anomalies).quality_level =
        .EXCELLENT ↔ 95 ≤ rawQualityScore original.rows.length cleaned.rows.length) ∧
    ((generateQualityReport cfg now original cleaned anomalies).quality_level =
        .GOOD ↔ 85 ≤ rawQualityScore original.rows.length cleaned.rows.length ∧
          rawQualityScore original.rows.length cleaned.rows.length < 95) ∧
    ((generateQualityReport cfg now original cleaned anomalies).quality_level =
        .ACCEPTABLE ↔ 75 ≤ rawQualityScore original.rows.length cleaned.rows.length ∧
          rawQualityScore original.rows.length cleaned.rows.length < 85) ∧
    ((generateQualityReport cfg now original cleaned anomalies).quality_level =
        .POOR ↔ rawQualityScore original.rows.length cleaned.rows.length < 75) :=
  qualityLevelOf_spec (rawQualityScore original.rows.length cleaned.rows.length)

/-! ## Claim theorems: anomaly detection z-scores (C6) -/

/-- C6: in a bank partition whose amounts have zero (or undefined, for
fewer than two records) sample standard deviation, every record has z-score
0 — the division by the standard deviation is never taken — and, for a
nonnegative threshold such as the default 3.0, no such record is classified
as an anomaly. -/
theorem c6_zero_std_no_anomaly (cfg : ProcessingConfig) (rows : List Row) (r : Row)
    (b : Value) (hb : bankCell r = some b) (hs : stdPos (groupAmounts rows b) = false)
    (ht : 0 ≤ cfg.anomaly_threshold_std) :
    zScoreSq rows r = some 0 ∧ isAnomalous cfg.anomaly_threshold_std rows r = false := by
  have hz : zScoreSq rows r = some 0 := by
    unfold zScoreSq
    rw [hb]
    show (if stdPos (groupAmounts rows b) = true then
            some ((amountQ r - qMean (groupAmounts rows b)) ^ 2 /
              sampleVar (groupAmounts rows b))
          else some 0) = some 0
    rw [if_neg (by rw [hs]; exact Bool.false_ne_true)]
  refine ⟨hz, ?_⟩
  unfold isAnomalous cellGtT zCell
  rw [hz]
  exact decide_eq_false (by
    rintro (hlt | hsq)
    · exact absurd hlt (not_lt.mpr ht)
    · exact absurd hsq (not_lt.mpr (sq_nonneg _)))

unseal Rat.add Rat.mul Rat.inv Rat.sub in
theorem c6_zero_std_no_anomaly_witness :
    bankCell rowGood = some (.str "B1") ∧
    stdPos (groupAmounts dfW.rows (.str "B1")) = false ∧
    (0 : ℚ) ≤ defaultConfig.anomaly_threshold_std ∧
    (zScoreSq dfW.rows rowGood = some 0 ∧
      isAnomalous defaultConfig.anomaly_threshold_std dfW.rows rowGood = false) :=
  ⟨by decide, by decide, by decide,
   c6_zero_std_no_anomaly defaultConfig dfW.rows rowGood (.str "B1")
     (by decide) (by decide) (by decide)⟩

/-! ## Claim theorems: stage purity (C9) -/

unseal Rat.add Rat.mul Rat.inv Rat.sub in
/-- C9 counterexample: detect_anomalies does not leave its input batch
unchanged — on a valid one-record batch the frame of the caller ends up with an
extra amount_zscore column after the stage completes. -/
theorem c9_counterexample : (detectAnomalies defaultConfig 0 dfW).inputAfter ≠ dfW := by
  decide

/-- C9 as amended: not every stage preserves its input batch. With
handle_outliers enabled, detect_anomalies mutates its input in place,
appending an amount_zscore column (so the input frame afterwards differs
from the frame that was passed in whenever it did not already carry that
column); with handle_outliers disabled the input is passed through
unchanged. (aggregate_daily_transactions likewise rewrites the transaction_date column of its input in place; the null-cleaning, typing and dedup
stages return fresh frames.) -/
theorem c9_amended (cfg : ProcessingConfig) (now : Int) (df : DataFrame) :
    (cfg.handle_outliers = false → (detectAnomalies cfg now df).inputAfter = df) ∧
    (cfg.handle_outliers = true →
      (detectAnomalies cfg now df).inputAfter = dfZOf df ∧
      (¬ "amount_zscore" ∈ df.cols → (detectAnomalies cfg now df).inputAfter ≠ df)) := by
  constructor
  · intro h
    unfold detectAnomalies
    rw [if_neg (by rw [h]; exact Bool.false_ne_true)]
  · intro h
    have h1 : (detectAnomalies cfg now df).inputAfter = dfZOf df := by
      unfold detectAnomalies
      rw [if_pos h]
    refine ⟨h1, fun hz heq => ?_⟩
    rw [h1] at heq
    have hc := congrArg (fun d => d.cols.length) heq
    unfold dfZOf addColName at hc
    rw [if_neg hz] at hc
    simp at hc

unseal Rat.add Rat.mul Rat.inv Rat.sub in
theorem c9_amended_witness :
    (detectAnomalies defaultConfig 0 dfW).inputAfter = dfZOf dfW ∧
    (detectAnomalies defaultConfig 0 dfW).inputAfter ≠ dfW :=
  ⟨((c9_amended defaultConfig 0 dfW).2 rfl).1,
   ((c9_amended defaultConfig 0 dfW).2 rfl).2 (by decide)⟩

/-! ## Claim theorems: the unused minimum amount (C10) -/

/-- C10: the range filter of validate_column_types is independent of
min_transaction_amount — the output of the stage does not change when that
config value changes, and every amount with 0 < amount and
amount <= max_transaction_amount passes the range check even when it lies
strictly below min_transaction_amount. -/
theorem c10_min_amount_unused (cfg : ProcessingConfig) (m : ℚ) (now : Int)
    (df : DataFrame) (a : ℚ) :
    validateColumnTypes { cfg with min_transaction_amount := m } now df =
      validateColumnTypes cfg now df ∧
    (0 < a → a ≤ cfg.max_transaction_amount → rangeOk cfg a = true) := by
  refine ⟨rfl, fun h1 h2 => ?_⟩
  unfold rangeOk
  rw [decide_eq_true h1, decide_eq_true h2]
  rfl

unseal Rat.add Rat.mul Rat.inv Rat.sub in
theorem c10_min_amount_unused_witness :
    (0 : ℚ) < 1 / 200 ∧ (1 : ℚ) / 200 < defaultConfig.min_transaction_amount ∧
    (validateColumnTypes { defaultConfig with min_transaction_amount := 5 } now0 dfW =
        validateColumnTypes defaultConfig now0 dfW ∧
      rangeOk defaultConfig (1 / 200) = true) :=
  ⟨by norm_num, by norm_num [defaultConfig],
   ⟨(c10_min_amount_unused defaultConfig 5 now0 dfW (1 / 200)).1,
    (c10_min_amount_unused defaultConfig 5 now0 dfW (1 / 200)).2
      (by norm_num) (by norm_num [defaultConfig])⟩⟩

/-! ## Claim theorems: orchestrator error behaviour (C1) -/

unseal Rat.add Rat.mul Rat.inv Rat.sub in
/-- C1 (bug witness): a schema-valid batch that carries the optional
transaction_type column makes the run fail anyway — the aggregation adds a
tenth agg output column for transaction_type but assigns exactly nine column
names, raising a Length mismatch ValueError — contradicting the claim (and
the two-tier error design) that an error is raised if and only if schema
validation fails. The create_sample_banking_data helper of the module itself produces such
batches. -/
theorem c1_transaction_type_batch_crashes :
    (validateSchema defaultConfig dfBug).1 = true ∧
    processBankingData defaultConfig now0 dfBug =
      .error "Length mismatch: Expected axis has 10 elements, new values have 9 elements" :=
  ⟨by decide, by decide⟩

/-! ## Lemmas tracking cells through the typing stage (C2) -/

theorem mem_detectDuplicates {cfg : ProcessingConfig} {df : DataFrame} {r : Row}
    (h : r ∈ (detectDuplicates cfg df).rows) : r ∈ df.rows := by
  unfold detectDuplicates at h
  by_cases hc : cfg.remove_duplicates
  · rw [if_pos hc] at h
    exact mem_dedupFirst h
  · rw [if_neg hc] at h
    exact h

theorem cellNumD_of_getCell {r : Row} {c : String} {a : ℚ}
    (h : getCell r c = some (.num a)) : cellNumD r c = a := by
  unfold cellNumD cellNumOpt
  rw [h]
  rfl

theorem mem_coerceAmounts {rows : List Row} {r : Row} (h : r ∈ coerceAmounts rows) :
    ∃ a : ℚ, getCell r "amount" = some (.num a) := by
  unfold coerceAmounts at h
  rcases List.mem_filterMap.mp h with ⟨r', _, hmap⟩
  rcases Option.map_eq_some'.mp hmap with ⟨a, _, hset⟩
  exact ⟨a, by rw [← hset]; exact getCell_setCell_self r' "amount" (.num a)⟩

theorem mem_filterAmountRange {cfg : ProcessingConfig} {rows : List Row} {r : Row}
    (h : r ∈ filterAmountRange cfg rows) :
    r ∈ rows ∧ rangeOk cfg (cellNumD r "amount") = true := by
  unfold filterAmountRange at h
  exact ⟨(List.mem_filter.mp h).1, (List.mem_filter.mp h).2⟩

theorem mem_roundAmounts {p : Nat} {rows : List Row} {r : Row}
    (h : r ∈ roundAmounts p rows) :
    ∃ r' ∈ rows, r = setCell r' "amount" (.num (roundTo p (cellNumD r' "amount"))) := by
  unfold roundAmounts at h
  rcases List.mem_map.mp h with ⟨r', hr', hmap⟩
  exact ⟨r', hr', hmap.symm⟩

theorem mem_rounded_range {cfg : ProcessingConfig} {rows : List Row} {r : Row}
    (h : r ∈ roundAmounts cfg.currency_precision
      (filterAmountRange cfg (coerceAmounts rows))) :
    ∃ a₀ : ℚ, 0 < a₀ ∧ a₀ ≤ cfg.max_transaction_amount ∧
      getCell r "amount" = some (.num (roundTo cfg.currency_precision a₀)) := by
  rcases mem_roundAmounts h with ⟨r', hr', hset⟩
  rcases mem_filterAmountRange hr' with ⟨hr'', hrange⟩
  rcases mem_coerceAmounts hr'' with ⟨a, ha⟩
  have hnum : cellNumD r' "amount" = a := cellNumD_of_getCell ha
  unfold rangeOk at hrange
  rw [hnum] at hrange
  rw [Bool.and_eq_true] at hrange
  rcases hrange with ⟨hpos, hle⟩
  refine ⟨a, of_decide_eq_true hpos, of_decide_eq_true hle, ?_⟩
  rw [hset, hnum]
  exact getCell_setCell_self r' "amount" _

theorem mem_stripStringField {c : String} {rows : List Row} {r : Row}
    (h : r ∈ stripStringField c rows) :
    ∃ r' ∈ rows, r = setCell r' c (.str (strTrim ((getCell r' c).getD .null).toStr)) := by
  unfold stripStringField at h
  have h1 := (List.mem_filter.mp h).1
  rcases List.mem_map.mp h1 with ⟨r', hr', hmap⟩
  exact ⟨r', hr', hmap.symm⟩

theorem mem_stripFields_cells {fields cols : List String} {rows : List Row} {r : Row}
    (hf : ∀ c ∈ fields, c ≠ "amount" ∧ c ≠ "transaction_date")
    (h : r ∈ stripFields fields cols rows) :
    ∃ r' ∈ rows, getCell r "amount" = getCell r' "amount" ∧
      getCell r "transaction_date" = getCell r' "transaction_date" := by
  induction fields generalizing rows with
  | nil => exact ⟨r, h, rfl, rfl⟩
  | cons c cs ih =>
    have hcs : ∀ x ∈ cs, x ≠ "amount" ∧ x ≠ "transaction_date" :=
      fun x hx => hf x (List.mem_cons_of_mem c hx)
    rcases ih hcs h with ⟨r', hr', ha, hd⟩
    by_cases hc : c ∈ cols
    · rw [if_pos hc] at hr'
      rcases mem_stripStringField hr' with ⟨r'', hr'', hset⟩
      have hfc := hf c (List.mem_cons_self c cs)
      refine ⟨r'', hr'', ?_, ?_⟩
      · rw [ha, hset]
        exact getCell_setCell_ne _ _ (Ne.symm hfc.1)
      · rw [hd, hset]
        exact getCell_setCell_ne _ _ (Ne.symm hfc.2)
    · rw [if_neg hc] at hr'
      exact ⟨r', hr', ha, hd⟩

theorem mem_typeRewritePhase_cells {cols : List String} {rows : List Row} {r : Row}
    (h : r ∈ typeRewritePhase cols rows) :
    ∃ r' ∈ rows, getCell r "amount" = getCell r' "amount" ∧
      getCell r "transaction_date" = getCell r' "transaction_date" := by
  unfold typeRewritePhase at h
  by_cases hc : "transaction_type" ∈ cols
  · rw [if_pos hc] at h
    rcases List.mem_map.mp h with ⟨r', hr', hmap⟩
    by_cases hv : validTypeCell ((getCell r' "transaction_type").getD .null) = true
    · rw [if_pos hv] at hmap
      exact ⟨r', hr', by rw [← hmap], by rw [← hmap]⟩
    · rw [if_neg hv] at hmap
      refine ⟨r', hr', ?_, ?_⟩
      · rw [← hmap]
        exact getCell_setCell_ne _ _ (by decide)
      · rw [← hmap]
        exact getCell_setCell_ne _ _ (by decide)
  · rw [if_neg hc] at h
    exact ⟨r, h, rfl, rfl⟩

theorem mem_datePhase_amount {cols : List String} {now : Int} {rows : List Row} {r : Row}
    (h : r ∈ datePhase cols now rows) :
    ∃ r' ∈ rows, getCell r "amount" = getCell r' "amount" := by
  unfold datePhase at h
  by_cases hc : "transaction_date" ∈ cols
  · rw [if_pos hc] at h
    unfold filterFutureDates at h
    by_cases hf : 0 < ((parseDates rows).filter (isFutureDate now)).length
    · rw [if_pos hf] at h
      have h1 := (List.mem_filter.mp h).1
      unfold parseDates at h1
      rcases List.mem_map.mp h1 with ⟨r', hr', hmap⟩
      exact ⟨r', hr', by rw [← hmap]; exact getCell_setCell_ne _ _ (by decide)⟩
    · rw [if_neg hf] at h
      unfold parseDates at h
      rcases List.mem_map.mp h with ⟨r', hr', hmap⟩
      exact ⟨r', hr', by rw [← hmap]; exact getCell_setCell_ne _ _ (by decide)⟩
  · rw [if_neg hc] at h
    exact ⟨r, h, rfl⟩

theorem mem_datePhase_not_future {cols : List String} {now : Int} {rows : List Row} {r : Row}
    (hc : "transaction_date" ∈ cols) (h : r ∈ datePhase cols now rows) :
    ∀ d : Int, getCell r "transaction_date" = some (.date d) → d ≤ now := by
  unfold datePhase at h
  rw [if_pos hc] at h
  unfold filterFutureDates at h
  by_cases hf : 0 < ((parseDates rows).filter (isFutureDate now)).length
  · rw [if_pos hf] at h
    intro d hd
    have h2 := (List.mem_filter.mp h).2
    unfold isPastOrPresentDate at h2
    rw [hd] at h2
    exact of_decide_eq_true h2
  · rw [if_neg hf] at h
    intro d hd
    have hlen : ((parseDates rows).filter (isFutureDate now)).length = 0 :=
      Nat.eq_zero_of_not_pos hf
    have hnil := List.length_eq_zero.mp hlen
    have hnf := List.filter_eq_nil_iff.mp hnil r h
    unfold isFutureDate at hnf
    rw [hd] at hnf
    simp at hnf
    omega

theorem mem_validateColumnTypes_amount {cfg : ProcessingConfig} {now : Int}
    {df : DataFrame} {r : Row} (h : r ∈ (validateColumnTypes cfg now df).rows) :
    ∃ a₀ : ℚ, 0 < a₀ ∧ a₀ ≤ cfg.max_transaction_amount ∧
      getCell r "amount" = some (.num (roundTo cfg.currency_precision a₀)) := by
  rcases mem_typeRewritePhase_cells h with ⟨r1, hr1, ha1, _⟩
  rcases mem_stripFields_cells (by decide) hr1 with ⟨r2, hr2, ha2, _⟩
  rcases mem_datePhase_amount hr2 with ⟨r3, hr3, ha3⟩
  rcases mem_rounded_range hr3 with ⟨a₀, h1, h2, h3⟩
  exact ⟨a₀, h1, h2, by rw [ha1, ha2, ha3, h3]⟩

theorem mem_validateColumnTypes_date {cfg : ProcessingConfig} {now : Int}
    {df : DataFrame} {r : Row} (hc : "transaction_date" ∈ df.cols)
    (h : r ∈ (validateColumnTypes cfg now df).rows) :
    ∀ d : Int, getCell r "transaction_date" = some (.date d) → d ≤ now := by
  rcases mem_typeRewritePhase_cells h with ⟨r1, hr1, _, hd1⟩
  rcases mem_stripFields_cells (by decide) hr1 with ⟨r2, hr2, _, hd2⟩
  intro d hd
  exact mem_datePhase_not_future hc hr2 d (by rw [← hd2, ← hd1]; exact hd)

theorem mem_normal_cells {cfg : ProcessingConfig} {now : Int} {df : DataFrame} {r : Row}
    (h : r ∈ (detectAnomalies cfg now df).normal.rows) :
    ∃ r' ∈ df.rows, getCell r "amount" = getCell r' "amount" ∧
      getCell r "transaction_date" = getCell r' "transaction_date" := by
  unfold detectAnomalies at h
  by_cases ho : cfg.handle_outliers
  · rw [if_pos ho] at h
    rcases List.mem_map.mp h with ⟨r1, hr1, hmap⟩
    unfold normRowsOf at hr1
    have hr2 := (List.mem_filter.mp hr1).1
    unfold dfZOf at hr2
    rcases List.mem_map.mp hr2 with ⟨r', hr', hmap2⟩
    refine ⟨r', hr', ?_, ?_⟩
    · rw [← hmap, getCell_eraseCell_ne _ (by decide), ← hmap2]
      exact getCell_setCell_ne _ _ (by decide)
    · rw [← hmap, getCell_eraseCell_ne _ (by decide), ← hmap2]
      exact getCell_setCell_ne _ _ (by decide)
  · rw [if_neg ho] at h
    exact ⟨r, h, rfl, rfl⟩

/-! ## Claim theorems: the typed-batch invariant (C2) -/

unseal Rat.add Rat.mul Rat.inv Rat.sub in
/-- C2 counterexample: a schema-valid batch whose single record has amount
0.001 — strictly inside the accepted range (0, max] — reaches the final
normal set with amount 0.00, because the currency rounding runs after the
range filter: the amount of the surviving record is not strictly greater than 0,
contradicting the claimed invariant. -/
theorem c2_counterexample :
    (finalNormalSet defaultConfig now0 dfC2).rows.map (fun r => getCell r "amount") =
      [some (Value.num 0)] := by
  decide

/-- C2 as amended: every record of the final normal set has an amount that
is the currency-precision rounding of some pre-rounding value in
(0, max_transaction_amount] — hence an amount that is nonnegative but can
be 0 after rounding — and a transaction_date that, when it parsed at all,
is not after the processing time (records whose date failed to parse can
survive when the batch contains no parsed future date). In particular a
record with amount -5 never survives. -/
theorem c2_amended (cfg : ProcessingConfig) (now : Int) (df : DataFrame) (r : Row)
    (hc : "transaction_date" ∈ df.cols)
    (h : r ∈ (finalNormalSet cfg now df).rows) :
    (∃ a₀ : ℚ, 0 < a₀ ∧ a₀ ≤ cfg.max_transaction_amount ∧
      getCell r "amount" = some (.num (roundTo cfg.currency_precision a₀))) ∧
    (∀ d : Int, getCell r "transaction_date" = some (.date d) → d ≤ now) := by
  unfold finalNormalSet at h
  rcases mem_normal_cells h with ⟨r1, hr1, ha1, hd1⟩
  have hr2 : r1 ∈ (validateColumnTypes cfg now (cleanNullValues df)).rows :=
    mem_detectDuplicates hr1
  have hc' : "transaction_date" ∈ (cleanNullValues df).cols := hc
  constructor
  · rcases mem_validateColumnTypes_amount hr2 with ⟨a₀, h1, h2, h3⟩
    exact ⟨a₀, h1, h2, by rw [ha1, h3]⟩
  · intro d hd
    exact mem_validateColumnTypes_date hc' hr2 d (by rw [← hd1]; exact hd)

unseal Rat.add Rat.mul Rat.inv Rat.sub in
theorem c2_amended_witness :
    (∃ a₀ : ℚ, 0 < a₀ ∧ a₀ ≤ defaultConfig.max_transaction_amount ∧
      getCell rowGoodFinal "amount" =
        some (.num (roundTo defaultConfig.currency_precision a₀))) ∧
    (∀ d : Int, getCell rowGoodFinal "transaction_date" = some (.date d) → d ≤ now0) :=
  c2_amended defaultConfig now0 dfW rowGoodFinal (by decide) (by decide)

/-! ## Lemmas for the anomaly partition (C5) -/

theorem zScoreSq_isSome {rows : List Row} {r : Row} (hb : bankCell r ≠ none) :
    ∃ s : ℚ, zScoreSq rows r = some s := by
  rcases hbc : bankCell r with _ | b
  · exact absurd hbc hb
  · unfold zScoreSq
    rw [hbc]
    show ∃ s, (if stdPos (groupAmounts rows b) = true then
        some ((amountQ r - qMean (groupAmounts rows b)) ^ 2 / sampleVar (groupAmounts rows b))
      else some 0) = some s
    by_cases hs : stdPos (groupAmounts rows b) = true
    · exact ⟨_, by rw [if_pos hs]⟩
    · exact ⟨0, by rw [if_neg hs]⟩

theorem cellLeT_zCell {t : ℚ} {rows : List Row} {r : Row} (hb : bankCell r ≠ none) :
    cellLeT t (some (zCell rows r)) = ! isAnomalous t rows r := by
  rcases @zScoreSq_isSome rows r hb with ⟨s, hs⟩
  unfold cellLeT isAnomalous cellGtT zCell
  rw [hs]

/-- Unfolding of the normal-set rows as a filter of the z-scored input. -/
theorem normRowsOf_eq_filter (t : ℚ) (df : DataFrame)
    (hb : ∀ r ∈ df.rows, bankCell r ≠ none) :
    normRowsOf t df =
      (df.rows.filter (fun r => ! isAnomalous t df.rows r)).map
        (fun r => setCell r "amount_zscore" (zCell df.rows r)) := by
  unfold normRowsOf dfZOf
  rw [List.filter_map]
  congr 1
  apply List.filter_congr
  intro r hr
  show cellLeT t (getCell (setCell r "amount_zscore" (zCell df.rows r)) "amount_zscore") =
    ! isAnomalous t df.rows r
  rw [getCell_setCell_self]
  exact cellLeT_zCell (hb r hr)

/-- Unfolding of the anomaly rows as a filter of the z-scored input. -/
theorem anomRowsOf_eq_filter (t : ℚ) (df : DataFrame) :
    anomRowsOf t df =
      (df.rows.filter (fun r => isAnomalous t df.rows r)).map
        (fun r => setCell r "amount_zscore" (zCell df.rows r)) := by
  unfold anomRowsOf dfZOf
  rw [List.filter_map]
  congr 1
  apply List.filter_congr
  intro r hr
  show cellGtT t (getCell (setCell r "amount_zscore" (zCell df.rows r)) "amount_zscore") =
    isAnomalous t df.rows r
  rw [getCell_setCell_self]
  rfl

/-! ## Claim theorems: the anomaly partition (C5) -/

/-- C5: with handle_outliers disabled, detect_anomalies returns its input
unchanged together with an empty anomaly frame. With handle_outliers
enabled, on a deduplicated batch (whose rows, as the pipeline guarantees,
carry a non-null bank_id and none of the three stage-added columns) the
normal set is exactly the sub-batch of non-anomalous records, the anomaly
set (stripped of its stamps) is exactly the sub-batch of anomalous records,
their concatenation is a permutation of the input batch, and no record lies
in both sets: every input record lands in exactly one of the two sets. -/
theorem c5_partition (cfg : ProcessingConfig) (now : Int) (df : DataFrame) :
    (cfg.handle_outliers = false →
      detectAnomalies cfg now df = ⟨df, df, emptyDF⟩) ∧
    (cfg.handle_outliers = true →
      (∀ r ∈ df.rows, bankCell r ≠ none ∧ hasKey r "amount_zscore" = false ∧
        hasKey r "anomaly_type" = false ∧ hasKey r "detected_at" = false) →
      ((detectAnomalies cfg now df).normal.rows =
          df.rows.filter (fun r => ! isAnomalous cfg.anomaly_threshold_std df.rows r) ∧
        (detectAnomalies cfg now df).anomalies.rows.map originalOf =
          df.rows.filter (fun r => isAnomalous cfg.anomaly_threshold_std df.rows r) ∧
        List.Perm ((detectAnomalies cfg now df).normal.rows ++
          (detectAnomalies cfg now df).anomalies.rows.map originalOf) df.rows ∧
        ∀ r : Row, ¬ (r ∈ (detectAnomalies cfg now df).normal.rows ∧
          r ∈ (detectAnomalies cfg now df).anomalies.rows.map originalOf))) := by
  constructor
  · intro h
    unfold detectAnomalies
    rw [if_neg (by rw [h]; exact Bool.false_ne_true)]
  · intro ho H
    have hnr : (detectAnomalies cfg now df).normal.rows =
        (normRowsOf cfg.anomaly_threshold_std df).map
          (fun r => eraseCell r "amount_zscore") := by
      unfold detectAnomalies
      rw [if_pos ho]
    have har : (detectAnomalies cfg now df).anomalies.rows =
        (if (anomRowsOf cfg.anomaly_threshold_std df).isEmpty then ([] : List Row)
         else (anomRowsOf cfg.anomaly_threshold_std df).map (tagAnomaly now)) := by
      unfold detectAnomalies
      rw [if_pos ho]
      show (if (anomRowsOf cfg.anomaly_threshold_std df).isEmpty = true then
              ({ cols := (dfZOf df).cols, rows := [] } : DataFrame)
            else
              { cols := (dfZOf df).cols ++ ["anomaly_type", "detected_at"],
                rows := (anomRowsOf cfg.anomaly_threshold_std df).map (tagAnomaly now) }).rows =
        _
      by_cases he : (anomRowsOf cfg.anomaly_threshold_std df).isEmpty
      · rw [if_pos he, if_pos he]
      · rw [if_neg he, if_neg he]
    have hnormal : (detectAnomalies cfg now df).normal.rows =
        df.rows.filter (fun r => ! isAnomalous cfg.anomaly_threshold_std df.rows r) := by
      rw [hnr, normRowsOf_eq_filter _ _ (fun r hr => (H r hr).1), List.map_map]
      have : ∀ r ∈ df.rows.filter
          (fun r => ! isAnomalous cfg.anomaly_threshold_std df.rows r),
          ((fun r => eraseCell r "amount_zscore") ∘
            (fun r => setCell r "amount_zscore" (zCell df.rows r))) r = id r := by
        intro r hr
        exact eraseCell_setCell r _ (H r (List.mem_filter.mp hr).1).2.1
      rw [List.map_congr_left this, List.map_id]
    have hanom : (detectAnomalies cfg now df).anomalies.rows.map originalOf =
        df.rows.filter (fun r => isAnomalous cfg.anomaly_threshold_std df.rows r) := by
      rw [har]
      by_cases he : (anomRowsOf cfg.anomaly_threshold_std df).isEmpty
      · rw [if_pos he]
        have h0 : anomRowsOf cfg.anomaly_threshold_std df = [] :=
          List.isEmpty_iff.mp he
        rw [anomRowsOf_eq_filter] at h0
        have h1 := List.map_eq_nil_iff.mp h0
        rw [h1]
        rfl
      · rw [if_neg he, anomRowsOf_eq_filter, List.map_map, List.map_map]
        have hcmp : ∀ r ∈ df.rows.filter
            (fun r => isAnomalous cfg.anomaly_threshold_std df.rows r),
            ((originalOf ∘ tagAnomaly now) ∘
              (fun r => setCell r "amount_zscore" (zCell df.rows r))) r = id r := by
          intro r hr
          have hH := H r (List.mem_filter.mp hr).1
          exact originalOf_tagAnomaly r now _ hH.2.1 hH.2.2.1 hH.2.2.2
        rw [List.map_congr_left hcmp, List.map_id]
    refine ⟨hnormal, hanom, ?_, ?_⟩
    · rw [hnormal, hanom]
      exact (List.perm_append_comm).trans
        (List.filter_append_perm (fun r => isAnomalous cfg.anomaly_threshold_std df.rows r)
          df.rows)
    · intro r hmem
      rcases hmem with ⟨h1, h2⟩
      rw [hnormal] at h1
      rw [hanom] at h2
      have b1 := (List.mem_filter.mp h1).2
      have b2 := (List.mem_filter.mp h2).2
      rw [b2] at b1
      simp at b1

unseal Rat.add Rat.mul Rat.inv Rat.sub in
theorem c5_partition_witness :
    (detectAnomalies defaultConfig 0 dfW).normal.rows =
      dfW.rows.filter
        (fun r => ! isAnomalous defaultConfig.anomaly_threshold_std dfW.rows r) ∧
    (detectAnomalies defaultConfig 0 dfW).anomalies.rows.map originalOf =
      dfW.rows.filter (fun r => isAnomalous defaultConfig.anomaly_threshold_std dfW.rows r) :=
  ⟨((c5_partition defaultConfig 0 dfW).2 rfl (by decide)).1,
   ((c5_partition defaultConfig 0 dfW).2 rfl (by decide)).2.1⟩

end EFT
